import Mathlib

/-!
# Verification of the MMM platform against its specification

This file gives a shallow embedding of the mmm-platform repository and settles
a list of claims about it.  The repository ships the presentation layer
(React/TypeScript components) together with the database schema and deployment
files; the analytical backend (AttributionEngine, SaturationEstimator,
BudgetOptimizer) is described by the specification but its source is not part
of the repository snapshot, so those components are modelled from the
specification, as marked in the doc comments below.

Frontend components embedded from source:
* `ChannelPerformance` (roiCurveData / timeSeriesData, with JavaScript IEEE
  division semantics for the unguarded `revenue / spend`),
* `AttributionComparison` (channelData / radarData),
* `BudgetOptimizer` component (calculateProjectedRevenue, budget sliders,
  total-allocated display).

Spec-modelled components:
* the attribution engine (§4.1, §7 of the spec),
* the water-filling budget optimizer (§4.4, §5, §7),
* the iteration-capped least-squares fit (§4.3, §5, §7),
* the saturating response curve (§4.3).
-/

/-! ## JavaScript number semantics for the frontend

The frontend divides rationals by rationals that may be `0`; JavaScript IEEE
semantics then produce `Infinity`, `-Infinity` or `NaN`.  `JSNumber` records
exactly those exceptional outcomes; the finite case keeps the exact rational
(rounding is irrelevant to every claim below, which only concern finiteness
and exact field values). -/

inductive JSNumber where
  | num (q : ℚ)
  | posInf
  | negInf
  | nan
  deriving DecidableEq, Repr

/-- IEEE-754 (hence JavaScript) division of two finite values: division by
zero yields `NaN` for `0 / 0` and a signed infinity otherwise. -/
def jsDiv (x y : ℚ) : JSNumber :=
  if y = 0 then
    if x = 0 then .nan
    else if 0 < x then .posInf
    else .negInf
  else .num (x / y)

/-- A `JSNumber` is finite when it is an ordinary numeric value. -/
def JSNumber.isFinite : JSNumber → Bool
  | .num _ => true
  | _ => false

/-! ## ChannelPerformance component (frontend/src/components, embedded in the
docker-compose.yml concatenation, lines 146-157) -/

/-- One entry of `time_series.daily` as delivered by the API
(`ChannelPerformance.time_series.daily` in services/api). -/
structure DailyPoint where
  date : String
  spend : ℚ
  revenue : ℚ
  conversions : ℚ
  deriving DecidableEq, Repr

structure RoiPoint where
  spend : ℚ
  revenue : ℚ
  roas : JSNumber
  deriving DecidableEq, Repr

/-- `roiCurveData` from ChannelPerformance: maps every day to
`{spend, revenue, roas: day.revenue / day.spend}` — the division is not
guarded — and sorts the points by spend. -/
def roiCurveData (daily : List DailyPoint) : List RoiPoint :=
  (daily.map (fun day => RoiPoint.mk day.spend day.revenue (jsDiv day.revenue day.spend))).mergeSort
    (fun a b => a.spend ≤ b.spend)

structure TimeSeriesPoint where
  date : String
  spend : ℚ
  revenue : ℚ
  conversions : ℚ
  roas : JSNumber
  deriving DecidableEq, Repr

/-- `timeSeriesData` from ChannelPerformance: spreads each day, reformats the
date (the date formatter is passed as a parameter `fmt`), and adds
`roas: day.revenue / day.spend`, again unguarded. -/
def timeSeriesData (daily : List DailyPoint) (fmt : String → String) : List TimeSeriesPoint :=
  daily.map (fun day =>
    TimeSeriesPoint.mk (fmt day.date) day.spend day.revenue day.conversions
      (jsDiv day.revenue day.spend))

/-! ## AttributionComparison component
(frontend/src/components/AttributionComparison.tsx, lines 63-77) -/

/-- One `AttributionResult` row from services/api.  `percentage` is `Option`
valued so that the optional-chaining expression
`channelResult?.percentage || 0` of the source (which also absorbs a missing
field at runtime) is representable. -/
structure AttributionResultRow where
  channel : String
  attributed_conversions : ℚ
  attributed_revenue : ℚ
  percentage : Option ℚ
  deriving DecidableEq, Repr

/-- The JavaScript idiom `x || 0` applied to a possibly-missing number. -/
def orZero (x : Option ℚ) : ℚ := x.getD 0

/-- `results.find(r => r.channel === channel)`. -/
def findChannel (results : List AttributionResultRow) (ch : String) :
    Option AttributionResultRow :=
  results.find? (fun r => r.channel == ch)

/-- The per-channel record built by `channelData` (lines 63-71): for each
model the value is `channelResult?.percentage || 0`. -/
def channelDatum (models : List (String × List AttributionResultRow)) (ch : String) :
    List (String × ℚ) :=
  models.map (fun mr => (mr.1, orZero ((findChannel mr.2 ch).bind (fun r => r.percentage))))

/-- `channelData`: one datum per key of `channel_variance`. -/
def channelData (models : List (String × List AttributionResultRow))
    (varianceChannels : List String) : List (String × List (String × ℚ)) :=
  varianceChannels.map (fun ch => (ch, channelDatum models ch))

/-- The value plotted by `radarData` (lines 74-77):
`comparisonData.models[selectedModel]?.find(r => r.channel === channel)?.percentage || 0`. -/
def radarValue (models : List (String × List AttributionResultRow))
    (selectedModel ch : String) : ℚ :=
  orZero (((models.lookup selectedModel).bind (fun results => findChannel results ch)).bind
    (fun r => r.percentage))

/-- `radarData`: one `(channel, value)` pair per key of `channel_variance`. -/
def radarData (models : List (String × List AttributionResultRow))
    (selectedModel : String) (varianceChannels : List String) : List (String × ℚ) :=
  varianceChannels.map (fun ch => (ch, radarValue models selectedModel ch))

/-! ## BudgetOptimizer component
(embedded in the docker-compose.yml concatenation, lines 352-562) -/

/-- The fields of an `OptimizationResult` (services/api) that the simulator
reads. -/
structure OptimizationResultView where
  projected_revenue : ℚ
  current_revenue : ℚ
  roi_improvement : ℚ
  deriving DecidableEq, Repr

/-- One channel of `DimishingReturnsData` (services/api). -/
structure ChannelDiminishingReturns where
  saturation_point : ℚ
  current_spend : ℚ
  efficiency_status : String
  deriving DecidableEq, Repr

/-- The "simple linear interpolation based on efficiency" of
`calculateProjectedRevenue` (lines 418-421): a flat multiplier per
efficiency status — 5.5 for "efficient", 6.5 for "under-invested",
3.5 for "over-saturated", 4.5 otherwise. -/
def efficiencyMultiplier (status : String) : ℚ :=
  if status == "efficient" then 11 / 2
  else if status == "under-invested" then 13 / 2
  else if status == "over-saturated" then 7 / 2
  else 9 / 2

/-- `calculateProjectedRevenue` (lines 411-427): returns `0` when either the
optimization result or the diminishing-returns data is missing; otherwise
sums `spend * efficiency` over the custom budgets, silently skipping any
channel absent from the diminishing-returns data. -/
def calculateProjectedRevenue (optimizationResult : Option OptimizationResultView)
    (diminishingReturns : Option (List (String × ChannelDiminishingReturns)))
    (customBudgets : List (String × ℚ)) : ℚ :=
  match optimizationResult, diminishingReturns with
  | some _, some dr =>
      (customBudgets.map (fun cb =>
        match dr.lookup cb.1 with
        | some cd => cb.2 * efficiencyMultiplier cd.efficiency_status
        | none => 0)).sum
  | _, _ => 0

/-- The budget-simulator slider (lines 538-549) is an HTML range input with
`min="0"` and `max={totalBudget * 0.5}`: its value is confined to that
interval. -/
def sliderClamp (totalBudget v : ℚ) : ℚ :=
  max 0 (min v (totalBudget * (1 / 2)))

/-- `Object.values(customBudgets).reduce((a, b) => a + b, 0)` (line 556). -/
def totalAllocated (budgets : List ℚ) : ℚ :=
  budgets.foldl (· + ·) 0

inductive BudgetColor where
  | red
  | green
  deriving DecidableEq, Repr

/-- The total-allocated display (lines 552-562): the only consequence of the
total exceeding `totalBudget` is the text color. -/
def totalAllocatedColor (budgets : List ℚ) (totalBudget : ℚ) : BudgetColor :=
  if totalAllocated budgets > totalBudget then .red else .green

/-- Line 440: in simulation mode the chart takes the custom budget unchanged,
otherwise the optimized one; no clamping against the total occurs. -/
def comparisonOptimized (simulationMode : Bool) (customBudget optimizedBudget : ℚ) : ℚ :=
  if simulationMode then customBudget else optimizedBudget

/-! ## Response curve (spec §4.3) -/

/-- Modelled from the spec: the SaturationEstimator backend is absent from
src/.  Per §4.3 the fitted response curve is
`revenue(spend) = a * (1 - e^(-b * spend))`. -/
noncomputable def curveRevenue (a b spend : ℝ) : ℝ :=
  a * (1 - Real.exp (-(b * spend)))

/-- Modelled from the spec: §4.4 defines
`projected revenue = Σ revenue_i(optimized_spend_i)` over each channel's
fitted ResponseCurve; curves are given as `(channel, a, b)` parameter
triples. -/
noncomputable def specProjectedRevenue (curves : List (String × ℝ × ℝ))
    (budgets : List (String × ℚ)) : ℝ :=
  (budgets.map (fun cb =>
    match curves.lookup cb.1 with
    | some ab => curveRevenue ab.1 ab.2 (cb.2 : ℝ)
    | none => 0)).sum

/-! ## Budget optimizer (spec §4.4, §5, §7)

Modelled from the spec: the BudgetOptimizer backend is absent from src/.
Per §4.4 the optimizer consumes each channel's ResponseCurve only through
evaluations of `revenue(spend)` and `marginal_return(spend)`, so a channel is
modelled as those two rational-valued functions together with its `[min, max]`
bound (§4.4: allocations are initialized at the bound minimum, default 0).
The loop awards one increment — design default `total_budget / 1000`, minimum
1 dollar — to the channel of highest marginal return among channels not at
their bound maximum, stopping early rather than overshooting, with the hard
ceiling of 1000 increments of §5 and the error taxonomy of §7. -/

structure OptChannel where
  marg : ℚ → ℚ
  rev : ℚ → ℚ
  lo : ℚ
  hi : ℚ

inductive OptError where
  | invalidBudget
  | iterationCeilingExceeded
  deriving DecidableEq, Repr

/-- Kernel-friendly sum of a `Fin`-indexed family of rationals. -/
def qsum {m : ℕ} (f : Fin m → ℚ) : ℚ :=
  ((List.finRange m).map f).sum

/-- The increment size of §4.4: `total_budget / 1000`, minimum 1. -/
def increment (tb : ℚ) : ℚ :=
  max (tb / 1000) 1

/-- The hard iteration ceiling of §5 for the water-filling loop. -/
def iterationCeiling : ℕ := 1000

/-- The channel receiving the next increment: the one with the currently
highest marginal return among channels not yet at their bound maximum
(`none` when every channel is at its maximum). -/
def pick {m : ℕ} (chans : Fin m → OptChannel) (alloc : Fin m → ℚ) : Option (Fin m) :=
  ((List.finRange m).filter (fun i => alloc i < (chans i).hi)).argmax
    (fun i => (chans i).marg (alloc i))

/-- Award the next budget increment to channel `k`, capped so as neither to
exceed the channel's bound maximum nor to overshoot the total budget. -/
def award {m : ℕ} (chans : Fin m → OptChannel) (tb : ℚ) (alloc : Fin m → ℚ)
    (k : Fin m) : Fin m → ℚ :=
  Function.update alloc k
    (alloc k + min (increment tb) (min ((chans k).hi - alloc k) (tb - qsum alloc)))

/-- The discretized water-filling loop, fueled by the iteration ceiling:
stop as soon as the running total reaches the budget or no channel can
receive more; when the ceiling would be exceeded report the failure instead
of returning a partial allocation. -/
def waterFillAux {m : ℕ} (chans : Fin m → OptChannel) (tb : ℚ) :
    ℕ → (Fin m → ℚ) → Except OptError (Fin m → ℚ)
  | 0, alloc =>
    if tb - qsum alloc ≤ 0 then .ok alloc
    else
      match pick chans alloc with
      | none => .ok alloc
      | some _ => .error .iterationCeilingExceeded
  | fuel + 1, alloc =>
    if tb - qsum alloc ≤ 0 then .ok alloc
    else
      match pick chans alloc with
      | none => .ok alloc
      | some k => waterFillAux chans tb fuel (award chans tb alloc k)

/-- The AllocationPlan of §3/§4.4 (recommendation records are presentation
data derived from the same fields and are not needed by any claim). -/
structure AllocationPlan (m : ℕ) where
  alloc : Fin m → ℚ
  projectedRevenue : ℚ
  currentRevenue : ℚ
  revenueLift : ℚ
  roiImprovement : ℚ

/-- `optimize` per §4.4 and §7: reject invalid requests (`total_budget < 0`
or a bound with `min > max`) before any allocation work, then water-fill from
the bound minimums.  Projected revenue, current revenue, lift and ROI
improvement are all evaluated on the same curves. -/
def optimize {m : ℕ} (chans : Fin m → OptChannel) (currentSpend : Fin m → ℚ)
    (tb : ℚ) : Except OptError (AllocationPlan m) :=
  if tb < 0 ∨ ∃ i, (chans i).hi < (chans i).lo then .error .invalidBudget
  else
    (waterFillAux chans tb iterationCeiling (fun i => (chans i).lo)).map fun alloc =>
      let projected := qsum (fun i => (chans i).rev (alloc i))
      let current := qsum (fun i => (chans i).rev (currentSpend i))
      { alloc := alloc
        projectedRevenue := projected
        currentRevenue := current
        revenueLift := projected - current
        roiImprovement := (projected - current) / qsum currentSpend * 100 }

/-- Whether an optimization result is a successful plan. -/
def resultOk {m : ℕ} (r : Except OptError (AllocationPlan m)) : Bool :=
  match r with
  | .ok _ => true
  | .error _ => false

/-- The allocation of a successful plan (0 on failure). -/
def allocOf {m : ℕ} (r : Except OptError (AllocationPlan m)) (i : Fin m) : ℚ :=
  match r with
  | .ok p => p.alloc i
  | .error _ => 0

/-! ## Least-squares fit ceiling (spec §4.3, §5, §7)

Modelled from the spec: the SaturationEstimator backend is absent from src/,
and §9 prescribes delegating the nonlinear solver to a numerical library, so
the per-iteration update `step` and the convergence test `converged` are left
abstract.  §5 imposes the hard ceiling of 200 iterations; §7 dictates that a
fit that fails to converge within the ceiling is a `FitDivergence`: it falls
back to the linear curve `revenue = k * spend` with
`k = total_revenue / total_spend`, flagged low-confidence — never an
iteration-ceiling error and never an infinite loop. -/

def fitCeiling : ℕ := 200

/-- The iteration-capped solver loop: `none` when the ceiling is reached
without convergence. -/
def lsqLoop {P : Type} (step : P → P) (converged : P → Bool) :
    ℕ → P → Option P
  | 0, _ => none
  | fuel + 1, p => if converged p then some p else lsqLoop step converged fuel (step p)

/-- Outcome of a curve fit: either fitted saturating-curve parameters or the
flat-ROAS linear fallback, which §4.3/§7 flag as low-confidence
(`FitDivergence`). -/
inductive ResponseCurveFit (P : Type) where
  | saturating (p : P)
  | linearFallback (k : ℚ)
  deriving DecidableEq

/-- The fit of §4.3 with the iteration ceiling of §5: run the solver loop for
at most `fitCeiling` iterations from the initial guess; on divergence return
the linear-ROAS fallback computed from the `(spend, revenue)` data pairs. -/
def fitCurve {P : Type} (step : P → P) (converged : P → Bool) (p0 : P)
    (data : List (ℚ × ℚ)) : ResponseCurveFit P :=
  match lsqLoop step converged fitCeiling p0 with
  | some p => .saturating p
  | none => .linearFallback ((data.map Prod.snd).sum / (data.map Prod.fst).sum)

/-! ## Attribution engine (spec §4.1, §7)

Modelled from the spec: the AttributionEngine backend is absent from src/.
A date range of `n` days with `m` channels is represented positionally:
`conv c d` / `rev c d` are channel `c`'s conversions and revenue on day `d`
(day `n - 1` is the end of the range).  Per §4.1 every model first normalizes
credit per date (a date with zero total touches contributes zero, not a
division by zero), produces per-channel raw credits, and per the mandatory
invariant of §4.1/§8 the final weights are the raw credits normalized across
the channel set; per §7 a range with zero conversions across all channels is
the `EmptyAttributionRange` outcome: all-zero weights flagged empty, for
every model. -/

inductive AttributionModel where
  | linear
  | timeDecay
  | uShaped
  | dataDriven
  deriving DecidableEq, Repr

/-- Total cross-channel touches (conversions) on day `d`. -/
def dateTotal {m n : ℕ} (conv : Fin m → Fin n → ℕ) (d : Fin n) : ℕ :=
  ∑ c, conv c d

/-- Total conversions of the whole range, across all channels. -/
def totalConversions {m n : ℕ} (conv : Fin m → Fin n → ℕ) : ℕ :=
  ∑ d, dateTotal conv d

/-- A channel's per-date credit share (§4.1 linear rule): its share of the
date's total touches; zero-touch dates contribute zero. -/
def shareQ {m n : ℕ} (conv : Fin m → Fin n → ℕ) (c : Fin m) (d : Fin n) : ℚ :=
  if dateTotal conv d = 0 then 0 else (conv c d : ℚ) / (dateTotal conv d : ℚ)

/-- Linear raw credit: per-date credit shares aggregated with each date
weighted by its own touch count. -/
def rawLinear {m n : ℕ} (conv : Fin m → Fin n → ℕ) : Fin m → ℚ :=
  fun c => ∑ d, shareQ conv c d * (dateTotal conv d : ℚ)

/-- Design-default half-life of §4.1: 7 days. -/
def halfLife : ℝ := 7

/-- Time-decay factor `2^(-(end_date - d) / half_life)` for day `d` of an
`n`-day range. -/
noncomputable def decayWeight (n : ℕ) (d : Fin n) : ℝ :=
  (2 : ℝ) ^ (-((n - 1 - d.val : ℕ) : ℝ) / halfLife)

/-- Time-decay raw credit: as linear, with each date further weighted by its
decay factor. -/
noncomputable def rawTimeDecay {m n : ℕ} (conv : Fin m → Fin n → ℕ) : Fin m → ℝ :=
  fun c => ∑ d, decayWeight n d * ((shareQ conv c d : ℝ) * (dateTotal conv d : ℝ))

/-- First-touch proxy of the u-shaped model: the date of the range with the
single highest conversions (earliest such date on ties). -/
def firstTouchDate {m n : ℕ} (conv : Fin m → Fin n → ℕ) : Option (Fin n) :=
  (List.finRange n).argmax (dateTotal conv)

/-- Last-touch proxy: the date with the single highest conversions within the
last 3 days of the range. -/
def lastTouchDate {m n : ℕ} (conv : Fin m → Fin n → ℕ) : Option (Fin n) :=
  ((List.finRange n).filter (fun d => n - 3 ≤ d.val)).argmax (dateTotal conv)

/-- The dates other than the first-touch and last-touch proxies. -/
def uOtherDates {n : ℕ} (ft lt : Fin n) : Finset (Fin n) :=
  Finset.univ \ {ft, lt}

/-- U-shaped raw credit (§4.1): 40% of the credit on the first-touch proxy
date, 40% on the last-touch proxy date, the remaining 20% split across all
other dates; a range of fewer than 3 dates collapses to linear. -/
def rawUShaped {m n : ℕ} (conv : Fin m → Fin n → ℕ) : Fin m → ℚ :=
  if n < 3 then rawLinear conv
  else
    match firstTouchDate conv, lastTouchDate conv with
    | some ft, some lt =>
        fun c =>
          2 / 5 * shareQ conv c ft + 2 / 5 * shareQ conv c lt +
            ∑ d ∈ uOtherDates ft lt, 1 / 5 / ((uOtherDates ft lt).card : ℚ) * shareQ conv c d
    | _, _ => rawLinear conv

/-- Baseline total revenue `R` with all channels included (§4.1 data_driven). -/
def baselineRevenue {m n : ℕ} (rev : Fin m → Fin n → ℚ) : ℚ :=
  ∑ c, ∑ d, rev c d

/-- `R_minus_c`: total revenue with channel `c`'s daily revenue zeroed. -/
def leaveOneOutRevenue {m n : ℕ} (rev : Fin m → Fin n → ℚ) (c : Fin m) : ℚ :=
  ∑ cp, ∑ d, if cp = c then 0 else rev cp d

/-- Data-driven raw credit: `max(0, R - R_minus_c)`. -/
def rawDataDriven {m n : ℕ} (rev : Fin m → Fin n → ℚ) : Fin m → ℚ :=
  fun c => max 0 (baselineRevenue rev - leaveOneOutRevenue rev c)

/-- Raw credit of each model; per §4.1 the data-driven model falls back to
linear when all its raw credits are 0. -/
noncomputable def rawCredit {m n : ℕ} (model : AttributionModel)
    (conv : Fin m → Fin n → ℕ) (rev : Fin m → Fin n → ℚ) : Fin m → ℝ :=
  match model with
  | .linear => fun c => (rawLinear conv c : ℝ)
  | .timeDecay => rawTimeDecay conv
  | .uShaped => fun c => (rawUShaped conv c : ℝ)
  | .dataDriven =>
      if ∀ c, rawDataDriven rev c = 0 then fun c => (rawLinear conv c : ℝ)
      else fun c => (rawDataDriven rev c : ℝ)

/-- Result of `attribute`: one weight per channel and the
`EmptyAttributionRange` flag of §7. -/
structure AttributionOutcome (m : ℕ) where
  weight : Fin m → ℝ
  isEmpty : Bool

/-- The attribution engine (`attribute` in the spec contract; renamed since
`attribute` is a Lean keyword): a range with zero conversions across all
channels yields all-zero weights flagged empty (§7); otherwise the model's
raw credits normalized over the channel set. -/
noncomputable def attributeRange {m n : ℕ} (model : AttributionModel)
    (conv : Fin m → Fin n → ℕ) (rev : Fin m → Fin n → ℚ) : AttributionOutcome m :=
  if totalConversions conv = 0 then ⟨fun _ => 0, true⟩
  else ⟨fun c => rawCredit model conv rev c / ∑ cp, rawCredit model conv rev cp, false⟩

/-! ## Concrete fixtures used by witnesses and counterexamples -/

/-- A two-channel optimizer instance with antitone linear marginal returns
(channel 0 stronger at low spend), bounds [0, 100]. -/
def demoChannels : Fin 2 → OptChannel :=
  fun i =>
    if i = 0 then ⟨fun s => 10 - s, fun s => 10 * s - s * s / 2, 0, 100⟩
    else ⟨fun s => 8 - s, fun s => 8 * s - s * s / 2, 0, 100⟩

/-- A single channel whose bound minimum (5) already exceeds small budgets. -/
def tightChannel : Fin 1 → OptChannel :=
  fun _ => ⟨fun _ => 1, fun s => s, 5, 10⟩

/-- A diminishing-returns record marked efficient, used at concrete inputs. -/
def demoDR : ChannelDiminishingReturns := ⟨2000, 1000, "efficient"⟩

/-- A concrete optimization-result view, used at concrete inputs. -/
def demoORV : OptimizationResultView := ⟨100, 50, 10⟩

/-! # Theorems -/

/-! ## C10 — calculateProjectedRevenue on missing data -/

/-- C10: `calculateProjectedRevenue` returns 0 whenever the optimization
result or the diminishing-returns data is unavailable, and a channel of the
custom budgets that is absent from the diminishing-returns data contributes 0
to the projected revenue: missing data is silently skipped, never reported as
an error (the function is total into ℚ and has no error outcome at all). -/
theorem calculate_projected_revenue_missing_data_zero :
    (∀ dr cb, calculateProjectedRevenue none dr cb = 0)
    ∧ (∀ o cb, calculateProjectedRevenue o none cb = 0)
    ∧ (∀ o dr ch s rest, dr.lookup ch = none →
        calculateProjectedRevenue (some o) (some dr) ((ch, s) :: rest)
          = calculateProjectedRevenue (some o) (some dr) rest) := by
  refine ⟨fun dr cb => by cases dr <;> rfl, fun o cb => by cases o <;> rfl,
    fun o dr ch s rest h => ?_⟩
  simp [calculateProjectedRevenue, h]

/-- Witness for C10 at concrete inputs: the channel "TikTok" is absent from
the (empty) diminishing-returns data, so it contributes nothing. -/
theorem calculate_projected_revenue_missing_data_zero_witness :
    calculateProjectedRevenue (some demoORV) (some []) [("TikTok", 7)]
      = calculateProjectedRevenue (some demoORV) (some []) [] :=
  calculate_projected_revenue_missing_data_zero.2.2 demoORV [] "TikTok" 7 [] (by decide)

/-! ## C9 — simulator slider bounds versus total budget -/

/-- C9: in the budget simulator every channel budget is individually confined
by its slider to [0, totalBudget/2], but the cross-channel sum is not
constrained: an assignment with every channel in bounds can exceed the total
budget, and the only reaction of the UI is the red color of the total — the
budgets themselves reach the comparison chart unchanged.  The simulated
allocation therefore does not inherit the optimizer's
Σ allocation ≤ total_budget invariant. -/
theorem simulator_slider_bounds_total_unconstrained (tb : ℚ) (htb : 0 < tb) :
    (∀ v, 0 ≤ sliderClamp tb v ∧ sliderClamp tb v ≤ tb * (1 / 2))
    ∧ ∃ budgets : List ℚ,
        (∀ b ∈ budgets, sliderClamp tb b = b)
        ∧ tb < totalAllocated budgets
        ∧ totalAllocatedColor budgets tb = .red
        ∧ ∀ b ∈ budgets, comparisonOptimized true b 0 = b := by
  have hhalf : (0 : ℚ) ≤ tb * (1 / 2) := by linarith
  constructor
  · intro v
    exact ⟨le_max_left _ _, max_le hhalf (min_le_right _ _)⟩
  · refine ⟨[tb * (1 / 2), tb * (1 / 2), tb * (1 / 2)], ?_, ?_, ?_, ?_⟩
    · intro b hb
      have hb2 : b = tb * (1 / 2) := by
        simpa using hb
      subst hb2
      simp [sliderClamp, hhalf, htb.le]
    · simp only [totalAllocated, List.foldl]
      linarith
    · have h3 : tb < totalAllocated [tb * (1 / 2), tb * (1 / 2), tb * (1 / 2)] := by
        simp only [totalAllocated, List.foldl]
        linarith
      simp only [totalAllocatedColor, if_pos h3]
    · intro b _
      rfl

/-- Witness for C9 at the component's default daily budget of 13000. -/
theorem simulator_slider_bounds_total_unconstrained_witness :
    (∀ v, 0 ≤ sliderClamp 13000 v ∧ sliderClamp 13000 v ≤ 13000 * (1 / 2))
    ∧ ∃ budgets : List ℚ,
        (∀ b ∈ budgets, sliderClamp 13000 b = b)
        ∧ 13000 < totalAllocated budgets
        ∧ totalAllocatedColor budgets 13000 = .red
        ∧ ∀ b ∈ budgets, comparisonOptimized true b 0 = b :=
  simulator_slider_bounds_total_unconstrained 13000 (by norm_num)

/-! ## C8 — attribution comparison charts on missing channel entries -/

/-- C8: for every channel listed in channel_variance and every model, the
comparison charts keep the channel (exactly one channelData datum and one
radarData point per variance channel) and assign percentage exactly 0 to any
(channel, model) pair whose result row is missing or whose percentage field
is absent, rather than omitting the channel or failing. -/
theorem attribution_comparison_missing_channel_zero
    (models : List (String × List AttributionResultRow))
    (varianceChannels : List String) (ch : String) (hch : ch ∈ varianceChannels) :
    ((ch, channelDatum models ch) ∈ channelData models varianceChannels
      ∧ (channelData models varianceChannels).length = varianceChannels.length)
    ∧ (∀ mname results, (mname, results) ∈ models →
        (findChannel results ch).bind (fun r => r.percentage) = none →
        (mname, (0 : ℚ)) ∈ channelDatum models ch)
    ∧ ∀ sel, (ch, radarValue models sel ch) ∈ radarData models sel varianceChannels
        ∧ (((models.lookup sel).bind (fun results => findChannel results ch)).bind
            (fun r => r.percentage) = none → radarValue models sel ch = 0) := by
  refine ⟨⟨List.mem_map_of_mem _ hch, List.length_map _ _⟩, ?_, ?_⟩
  · intro mname results hmem hnone
    refine List.mem_map.mpr ⟨(mname, results), hmem, ?_⟩
    simp [hnone, orZero]
  · intro sel
    refine ⟨List.mem_map_of_mem _ hch, fun hnone => ?_⟩
    simp [radarValue, hnone, orZero]

/-- Witness for C8: two models, one lacking any row for "TikTok" and the
other lacking the percentage field on its "TikTok" row. -/
theorem attribution_comparison_missing_channel_zero_witness :
    (("TikTok", channelDatum
        [("linear", [⟨"Email", 1, 2, some 30⟩]),
         ("time_decay", [⟨"TikTok", 1, 2, none⟩])] "TikTok")
      ∈ channelData
        [("linear", [⟨"Email", 1, 2, some 30⟩]),
         ("time_decay", [⟨"TikTok", 1, 2, none⟩])] ["Email", "TikTok"]
      ∧ (channelData
          [("linear", [⟨"Email", 1, 2, some 30⟩]),
           ("time_decay", [⟨"TikTok", 1, 2, none⟩])] ["Email", "TikTok"]).length
        = (["Email", "TikTok"] : List String).length)
    ∧ (∀ mname results,
        (mname, results) ∈
          [("linear", [⟨"Email", 1, 2, some 30⟩]),
           ("time_decay", [⟨"TikTok", 1, 2, none⟩])] →
        (findChannel results "TikTok").bind (fun r => r.percentage) = none →
        (mname, (0 : ℚ)) ∈ channelDatum
          [("linear", [⟨"Email", 1, 2, some 30⟩]),
           ("time_decay", [⟨"TikTok", 1, 2, none⟩])] "TikTok")
    ∧ ∀ sel, ("TikTok", radarValue
          [("linear", [⟨"Email", 1, 2, some 30⟩]),
           ("time_decay", [⟨"TikTok", 1, 2, none⟩])] sel "TikTok")
        ∈ radarData
          [("linear", [⟨"Email", 1, 2, some 30⟩]),
           ("time_decay", [⟨"TikTok", 1, 2, none⟩])] sel ["Email", "TikTok"]
        ∧ ((([("linear", [⟨"Email", 1, 2, some 30⟩]),
              ("time_decay", [⟨"TikTok", 1, 2, none⟩])].lookup sel).bind
              (fun results => findChannel results "TikTok")).bind
            (fun r => r.percentage) = none →
            radarValue
              [("linear", [⟨"Email", 1, 2, some 30⟩]),
               ("time_decay", [⟨"TikTok", 1, 2, none⟩])] sel "TikTok" = 0) :=
  attribution_comparison_missing_channel_zero
    [("linear", [⟨"Email", 1, 2, some 30⟩]), ("time_decay", [⟨"TikTok", 1, 2, none⟩])]
    ["Email", "TikTok"] "TikTok" (by decide)

/-! ## C3 — ROAS division is not guarded at spend = 0 -/

/-- C3 (refutation): the claim that ROAS division is guarded fails on the
code.  On a day with spend = 0 and revenue 100 both roiCurveData and
timeSeriesData emit a non-finite roas (`Infinity`), and a day with spend = 0
and revenue 0 yields `NaN`: the divisions at ChannelPerformance lines 146-157
have no guard. -/
theorem roas_division_unguarded_at_zero_spend :
    (roiCurveData [⟨"2024-01-01", 0, 100, 3⟩]).map (fun p => p.roas.isFinite) = [false]
    ∧ (timeSeriesData [⟨"2024-01-01", 0, 100, 3⟩] id).map (fun p => p.roas.isFinite) = [false]
    ∧ jsDiv 100 0 = .posInf ∧ jsDiv 0 0 = .nan := by
  refine ⟨?_, by decide, by decide, by decide⟩
  rw [roiCurveData, List.map_cons, List.map_nil, List.mergeSort_singleton]
  decide

/-! ## C2 — the simulator's projection is a flat multiplier, not the curve -/

/-- C2 (refutation): the claim that the simulator's projected revenue equals
the curve-based projection Σ revenue_i(spend_i) of §4.4 fails on the code.
At a concrete custom allocation ("Google Ads", spend 1) with the channel
marked efficient, calculateProjectedRevenue is the flat multiplier
5.5 × spend = 5.5, while the curve-based projection with fitted parameters
a = 1, b = 1 is a·(1 − e^(−b·1)) < 1; the two disagree. -/
theorem simulator_projection_flat_multiplier_diverges :
    calculateProjectedRevenue (some demoORV) (some [("Google Ads", demoDR)])
        [("Google Ads", 1)] = 11 / 2
    ∧ specProjectedRevenue [("Google Ads", (1, 1))] [("Google Ads", 1)] < 1
    ∧ ((calculateProjectedRevenue (some demoORV) (some [("Google Ads", demoDR)])
          [("Google Ads", 1)] : ℚ) : ℝ)
        ≠ specProjectedRevenue [("Google Ads", (1, 1))] [("Google Ads", 1)] := by
  have hcalc : calculateProjectedRevenue (some demoORV) (some [("Google Ads", demoDR)])
      [("Google Ads", 1)] = 11 / 2 := by
    simp [calculateProjectedRevenue, efficiencyMultiplier, demoDR, List.lookup]
  have hspec : specProjectedRevenue [("Google Ads", (1, 1))] [("Google Ads", 1)] < 1 := by
    have hexp : 0 < Real.exp (-(1 * (1 : ℚ) : ℝ)) := Real.exp_pos _
    simp only [specProjectedRevenue, List.map_cons, List.map_nil, List.lookup,
      List.sum_cons, List.sum_nil, curveRevenue]
    norm_num at hexp ⊢
    nlinarith [hexp]
  refine ⟨hcalc, hspec, ?_⟩
  rw [hcalc]
  intro h
  rw [← h] at hspec
  norm_num at hspec

/-! ## Water-filling loop lemmas -/

theorem qsum_eq_sum {m : ℕ} (f : Fin m → ℚ) : qsum f = ∑ i, f i :=
  (Fin.sum_univ_def f).symm

theorem qsum_update {m : ℕ} (f : Fin m → ℚ) (k : Fin m) (v : ℚ) :
    qsum (Function.update f k v) = qsum f - f k + v := by
  simp only [qsum_eq_sum]
  rw [Finset.sum_update_of_mem (Finset.mem_univ k),
    Finset.sum_sdiff_eq_sub (Finset.subset_univ {k}), Finset.sum_singleton]
  ring

theorem qsum_le_qsum {m : ℕ} {f g : Fin m → ℚ} (h : ∀ i, f i ≤ g i) :
    qsum f ≤ qsum g := by
  simp only [qsum_eq_sum]
  exact Finset.sum_le_sum fun i _ => h i

theorem increment_pos (tb : ℚ) : 0 < increment tb :=
  lt_of_lt_of_le one_pos (le_max_right _ _)

theorem pick_eligible {m : ℕ} {chans : Fin m → OptChannel} {alloc : Fin m → ℚ}
    {k : Fin m} (h : pick chans alloc = some k) : alloc k < (chans k).hi := by
  have hk := List.argmax_mem h
  simpa using (List.mem_filter.mp hk).2

theorem pick_maximal {m : ℕ} {chans : Fin m → OptChannel} {alloc : Fin m → ℚ}
    {k : Fin m} (h : pick chans alloc = some k) (j : Fin m)
    (hj : alloc j < (chans j).hi) :
    (chans j).marg (alloc j) ≤ (chans k).marg (alloc k) := by
  have hjmem : j ∈ (List.finRange m).filter (fun i => alloc i < (chans i).hi) := by
    simp [List.mem_filter, List.mem_finRange, hj]
  exact le_of_not_lt (List.not_lt_of_mem_argmax hjmem h)

theorem pick_exhausted {m : ℕ} {chans : Fin m → OptChannel} {alloc : Fin m → ℚ}
    (h : pick chans alloc = none) (i : Fin m) : (chans i).hi ≤ alloc i := by
  by_contra hlt
  push_neg at hlt
  have hmem : i ∈ (List.finRange m).filter (fun j => alloc j < (chans j).hi) := by
    simp [List.mem_filter, List.mem_finRange, hlt]
  rw [List.argmax_eq_none.mp h] at hmem
  exact absurd hmem (List.not_mem_nil i)

theorem award_step_pos {m : ℕ} (chans : Fin m → OptChannel) (tb : ℚ)
    (alloc : Fin m → ℚ) (k : Fin m) (hk : alloc k < (chans k).hi)
    (hrem : 0 < tb - qsum alloc) :
    0 < min (increment tb) (min ((chans k).hi - alloc k) (tb - qsum alloc)) :=
  lt_min (increment_pos tb) (lt_min (by linarith) hrem)

theorem award_qsum {m : ℕ} (chans : Fin m → OptChannel) (tb : ℚ)
    (alloc : Fin m → ℚ) (k : Fin m) :
    qsum (award chans tb alloc k)
      = qsum alloc + min (increment tb) (min ((chans k).hi - alloc k) (tb - qsum alloc)) := by
  unfold award
  rw [qsum_update]
  ring

theorem waterFillAux_error {m : ℕ} (chans : Fin m → OptChannel) (tb : ℚ) :
    ∀ (fuel : ℕ) (alloc : Fin m → ℚ) (e : OptError),
    waterFillAux chans tb fuel alloc = .error e → e = .iterationCeilingExceeded := by
  intro fuel
  induction fuel with
  | zero =>
    intro alloc e h
    rw [waterFillAux] at h
    split at h
    · exact absurd h (by simp)
    · split at h
      · exact absurd h (by simp)
      · exact (Except.error.inj h).symm
  | succ fuel ih =>
    intro alloc e h
    rw [waterFillAux] at h
    split at h
    · exact absurd h (by simp)
    · split at h
      · exact absurd h (by simp)
      · exact ih _ e h

theorem waterFillAux_ok_invariant {m : ℕ} (chans : Fin m → OptChannel) (tb : ℚ) :
    ∀ (fuel : ℕ) (alloc out : Fin m → ℚ),
    (∀ i, (chans i).lo ≤ alloc i ∧ alloc i ≤ (chans i).hi) →
    qsum alloc ≤ tb →
    waterFillAux chans tb fuel alloc = .ok out →
    (∀ i, (chans i).lo ≤ out i ∧ out i ≤ (chans i).hi)
      ∧ qsum out ≤ tb
      ∧ (qsum out = tb ∨ ∀ i, out i = (chans i).hi) := by
  intro fuel
  induction fuel with
  | zero =>
    intro alloc out hb hs h
    rw [waterFillAux] at h
    split at h
    next hstop =>
      cases h
      exact ⟨hb, hs, Or.inl (le_antisymm hs (by linarith))⟩
    next hstop =>
      split at h
      next hnone =>
        cases h
        exact ⟨hb, hs, Or.inr fun i => le_antisymm (hb i).2 (pick_exhausted hnone i)⟩
      next k hk => exact absurd h (by simp)
  | succ fuel ih =>
    intro alloc out hb hs h
    rw [waterFillAux] at h
    split at h
    next hstop =>
      cases h
      exact ⟨hb, hs, Or.inl (le_antisymm hs (by linarith))⟩
    next hstop =>
      split at h
      next hnone =>
        cases h
        exact ⟨hb, hs, Or.inr fun i => le_antisymm (hb i).2 (pick_exhausted hnone i)⟩
      next k hk =>
        have hrem : 0 < tb - qsum alloc := by
          push_neg at hstop
          linarith
        have helig := pick_eligible hk
        have hspos := award_step_pos chans tb alloc k helig hrem
        refine ih (award chans tb alloc k) out ?_ ?_ h
        · intro i
          unfold award
          rcases eq_or_ne i k with rfl | hne
          · rw [Function.update_same]
            refine ⟨by linarith [(hb i).1], ?_⟩
            have hcap : min (increment tb) (min ((chans i).hi - alloc i) (tb - qsum alloc))
                ≤ (chans i).hi - alloc i := le_trans (min_le_right _ _) (min_le_left _ _)
            linarith
          · rw [Function.update_noteq hne]
            exact hb i
        · rw [award_qsum]
          have hcap : min (increment tb) (min ((chans k).hi - alloc k) (tb - qsum alloc))
              ≤ tb - qsum alloc := le_trans (min_le_right _ _) (min_le_right _ _)
          linarith

theorem award_apply_self {m : ℕ} (chans : Fin m → OptChannel) (tb : ℚ)
    (alloc : Fin m → ℚ) (k : Fin m) :
    award chans tb alloc k k
      = alloc k + min (increment tb) (min ((chans k).hi - alloc k) (tb - qsum alloc)) := by
  unfold award
  rw [Function.update_same]

theorem award_apply_ne {m : ℕ} (chans : Fin m → OptChannel) (tb : ℚ)
    (alloc : Fin m → ℚ) (k : Fin m) {i : Fin m} (h : i ≠ k) :
    award chans tb alloc k i = alloc i := by
  unfold award
  rw [Function.update_noteq h]

theorem waterFillAux_marg_invariant {m : ℕ} (chans : Fin m → OptChannel) (tb : ℚ)
    (hmarg : ∀ i, Antitone (chans i).marg) :
    ∀ (fuel : ℕ) (alloc out : Fin m → ℚ),
    (∀ i j, (chans i).lo < alloc i → alloc j < (chans j).hi →
      (chans j).marg (alloc j) ≤ (chans i).marg (alloc i - increment tb)) →
    waterFillAux chans tb fuel alloc = .ok out →
    ∀ i j, (chans i).lo < out i → out j < (chans j).hi →
      (chans j).marg (out j) ≤ (chans i).marg (out i - increment tb) := by
  intro fuel
  induction fuel with
  | zero =>
    intro alloc out hP h
    rw [waterFillAux] at h
    split at h
    next =>
      cases h
      exact hP
    next =>
      split at h
      next =>
        cases h
        exact hP
      next k hk => exact absurd h (by simp)
  | succ fuel ih =>
    intro alloc out hP h
    rw [waterFillAux] at h
    split at h
    next =>
      cases h
      exact hP
    next hstop =>
      split at h
      next =>
        cases h
        exact hP
      next k hk =>
        refine ih (award chans tb alloc k) out ?_ h
        have hrem : 0 < tb - qsum alloc := by
          push_neg at hstop
          linarith
        have helig := pick_eligible hk
        have hspos := award_step_pos chans tb alloc k helig hrem
        have hsle : min (increment tb) (min ((chans k).hi - alloc k) (tb - qsum alloc))
            ≤ increment tb := min_le_left _ _
        intro i j hi hj
        rcases eq_or_ne i k with rfl | hik
        · have hize : (chans i).marg (alloc i)
              ≤ (chans i).marg (award chans tb alloc i i - increment tb) := by
            refine hmarg i ?_
            rw [award_apply_self]
            linarith
          rcases eq_or_ne j i with rfl | hji
          · refine le_trans (hmarg j ?_) hize
            rw [award_apply_self]
            linarith
          · rw [award_apply_ne chans tb alloc i hji] at hj ⊢
            exact le_trans (pick_maximal hk j hj) hize
        · rw [award_apply_ne chans tb alloc k hik] at hi ⊢
          rcases eq_or_ne j k with rfl | hjk
          · refine le_trans (hmarg j ?_) (hP i j hi helig)
            rw [award_apply_self]
            linarith
          · rw [award_apply_ne chans tb alloc k hjk] at hj ⊢
            exact hP i j hi hj

theorem optimize_result_ignores_current_spend {m : ℕ} (chans : Fin m → OptChannel)
    (cs cs2 : Fin m → ℚ) (tb : ℚ) :
    resultOk (optimize chans cs tb) = resultOk (optimize chans cs2 tb)
    ∧ ∀ i, allocOf (optimize chans cs tb) i = allocOf (optimize chans cs2 tb) i := by
  unfold optimize
  split
  · exact ⟨rfl, fun i => rfl⟩
  · cases h : waterFillAux chans tb iterationCeiling (fun i => (chans i).lo) with
    | ok p => simp [resultOk, allocOf, Except.map, h]
    | error e => simp [resultOk, allocOf, Except.map, h]

theorem optimize_ok_waterFill {m : ℕ} {chans : Fin m → OptChannel} {cs : Fin m → ℚ}
    {tb : ℚ} (hok : resultOk (optimize chans cs tb) = true) :
    ∃ out, waterFillAux chans tb iterationCeiling (fun i => (chans i).lo) = .ok out
      ∧ allocOf (optimize chans cs tb) = out := by
  unfold optimize at hok ⊢
  by_cases hv : tb < 0 ∨ ∃ i, (chans i).hi < (chans i).lo
  · rw [if_pos hv] at hok
    simp [resultOk] at hok
  · rw [if_neg hv] at hok ⊢
    cases h : waterFillAux chans tb iterationCeiling (fun i => (chans i).lo) with
    | ok p =>
      exact ⟨p, rfl, rfl⟩
    | error e =>
      rw [h] at hok
      simp [resultOk, Except.map] at hok

theorem qsum_out_min {m : ℕ} {chans : Fin m → OptChannel} {tb : ℚ} {out : Fin m → ℚ}
    (hbounds : ∀ i, (chans i).lo ≤ out i ∧ out i ≤ (chans i).hi)
    (hle : qsum out ≤ tb)
    (hcase : qsum out = tb ∨ ∀ i, out i = (chans i).hi) :
    qsum out = min tb (qsum fun i => (chans i).hi) := by
  rcases hcase with heq | hhi
  · have htble : tb ≤ qsum (fun i => (chans i).hi) := by
      rw [← heq]
      exact qsum_le_qsum fun i => (hbounds i).2
    rw [heq, min_eq_left htble]
  · have h2 : qsum out = qsum (fun i => (chans i).hi) :=
      congrArg qsum (funext hhi)
    have hhile : qsum (fun i => (chans i).hi) ≤ tb := h2 ▸ hle
    rw [h2, min_eq_right hhile]

/-! Rational arithmetic must reduce for the concrete witness evaluations
below; Batteries marks the `Rat` operations `@[irreducible]`, which only
affects elaboration-time unfolding. -/

attribute [local semireducible] Rat.add Rat.mul Rat.inv Rat.sub

/-! ## C4 — allocation bounds and budget sum (amended) -/

/-- C4 (amended; see the counterexample `optimize_sum_exceeds_budget_for_infeasible_minimums`
for why the claim needs the extra feasibility hypotheses): for every
optimization request with each channel bound satisfying 0 ≤ min ≤ max and
with the bound minimums summing to at most total_budget, a successful plan
has every per-channel allocation non-negative and within its channel's
[min, max] bound, and the allocations sum to exactly
min(total_budget, Σ max) — in particular they never exceed total_budget,
and they equal it whenever the bound maximums allow. -/
theorem optimize_allocation_bounds_and_sum {m : ℕ} (chans : Fin m → OptChannel)
    (cs : Fin m → ℚ) (tb : ℚ)
    (hlohi : ∀ i, (chans i).lo ≤ (chans i).hi)
    (hlo : ∀ i, 0 ≤ (chans i).lo)
    (hsum : qsum (fun i => (chans i).lo) ≤ tb)
    (hok : resultOk (optimize chans cs tb) = true) :
    (∀ i, (chans i).lo ≤ allocOf (optimize chans cs tb) i
        ∧ allocOf (optimize chans cs tb) i ≤ (chans i).hi
        ∧ 0 ≤ allocOf (optimize chans cs tb) i)
    ∧ qsum (allocOf (optimize chans cs tb)) ≤ tb
    ∧ qsum (allocOf (optimize chans cs tb)) = min tb (qsum fun i => (chans i).hi) := by
  obtain ⟨out, hwf, halloc⟩ := optimize_ok_waterFill hok
  obtain ⟨hbounds, hle, hcase⟩ := waterFillAux_ok_invariant chans tb iterationCeiling
    (fun i => (chans i).lo) out (fun i => ⟨le_refl _, hlohi i⟩) hsum hwf
  rw [halloc]
  exact ⟨fun i => ⟨(hbounds i).1, (hbounds i).2, le_trans (hlo i) (hbounds i).1⟩,
    hle, qsum_out_min hbounds hle hcase⟩

/-- Witness for C4 at the two-channel fixture with budget 4. -/
theorem optimize_allocation_bounds_and_sum_witness :
    (∀ i, (demoChannels i).lo ≤ allocOf (optimize demoChannels (fun _ => 1) 4) i
        ∧ allocOf (optimize demoChannels (fun _ => 1) 4) i ≤ (demoChannels i).hi
        ∧ 0 ≤ allocOf (optimize demoChannels (fun _ => 1) 4) i)
    ∧ qsum (allocOf (optimize demoChannels (fun _ => 1) 4)) ≤ 4
    ∧ qsum (allocOf (optimize demoChannels (fun _ => 1) 4))
        = min 4 (qsum fun i => (demoChannels i).hi) :=
  optimize_allocation_bounds_and_sum demoChannels (fun _ => 1) 4
    (by decide) (by decide) (by decide) (by decide)

/-- C4 (refuting the original claim): a request that is valid in the sense of
the claim (total_budget ≥ 0 and min ≤ max for every bound) can still force
the allocation sum above total_budget, because allocations start at the bound
minimums: with one channel bounded to [5, 10] and total_budget 2 the
optimizer succeeds and allocates 5 > 2. -/
theorem optimize_sum_exceeds_budget_for_infeasible_minimums :
    (0 : ℚ) ≤ 2 ∧ (∀ i, (tightChannel i).lo ≤ (tightChannel i).hi)
    ∧ resultOk (optimize tightChannel (fun _ => 1) 2) = true
    ∧ 2 < qsum (allocOf (optimize tightChannel (fun _ => 1) 2)) := by
  decide

/-! ## C5 — marginal-return equalization -/

/-- C5: when every channel's marginal-return function is antitone
(§8: `marginal_return(spend) = a·b·e^(−b·spend)` is strictly decreasing for
every accepted fit), a successful water-filling allocation equalizes marginal
returns across channels not pinned at a bound, up to one increment: for any
channel `i` strictly above its bound minimum and any channel `j` strictly
below its bound maximum, `marg_j(alloc_j) ≤ marg_i(alloc_i − increment)`.
Instantiating the statement with `(i, j)` and `(j, i)` bounds the two
marginal returns of any two unconstrained channels within the change of the
marginal over a single increment — the spec's acceptance criterion
`marginal_return_A(spend_A) ≈ marginal_return_B(spend_B)` within one
increment's tolerance. -/
theorem optimize_equalizes_marginal_returns {m : ℕ} (chans : Fin m → OptChannel)
    (cs : Fin m → ℚ) (tb : ℚ) (hmarg : ∀ i, Antitone (chans i).marg)
    (hok : resultOk (optimize chans cs tb) = true) :
    ∀ i j, (chans i).lo < allocOf (optimize chans cs tb) i →
      allocOf (optimize chans cs tb) j < (chans j).hi →
      (chans j).marg (allocOf (optimize chans cs tb) j)
        ≤ (chans i).marg (allocOf (optimize chans cs tb) i - increment tb) := by
  obtain ⟨out, hwf, halloc⟩ := optimize_ok_waterFill hok
  rw [halloc]
  exact waterFillAux_marg_invariant chans tb hmarg iterationCeiling
    (fun i => (chans i).lo) out (fun i j hi _ => absurd hi (lt_irrefl _)) hwf

/-- Witness for C5 at the two-channel fixture with budget 4 (increment 1):
channel 0 with marginal `10 − s` receives 3 and channel 1 with marginal
`8 − s` receives 1; neither is pinned at a bound, and channel 1's marginal
return at its allocation is below channel 0's one increment back. -/
theorem optimize_equalizes_marginal_returns_witness :
    (demoChannels 1).marg (allocOf (optimize demoChannels (fun _ => 1) 4) 1)
      ≤ (demoChannels 0).marg (allocOf (optimize demoChannels (fun _ => 1) 4) 0 - increment 4) :=
  optimize_equalizes_marginal_returns demoChannels (fun _ => 1) 4
    (by
      intro i
      fin_cases i <;>
        · simp only [demoChannels]
          norm_num
          intro a b hab
          simp only []
          linarith)
    (by decide) 0 1 (by decide) (by decide)

/-! ## C7 — re-optimization is a fixed point -/

/-- C7: optimize is a fixed point under re-optimization: feeding a successful
plan's allocation back as current_spend with the same total_budget succeeds
and returns exactly the same allocation (the claim's "within increment
tolerance" holds with zero error, because the water-filling allocation does
not depend on current_spend at all — current_spend only enters the revenue
and recommendation fields of the plan). -/
theorem optimize_fixed_point_on_own_output {m : ℕ} (chans : Fin m → OptChannel)
    (cs : Fin m → ℚ) (tb : ℚ)
    (hok : resultOk (optimize chans cs tb) = true) :
    resultOk (optimize chans (allocOf (optimize chans cs tb)) tb) = true
    ∧ ∀ i, allocOf (optimize chans (allocOf (optimize chans cs tb)) tb) i
        = allocOf (optimize chans cs tb) i := by
  obtain ⟨hok2, hall⟩ := optimize_result_ignores_current_spend chans
    (allocOf (optimize chans cs tb)) cs tb
  exact ⟨hok2.trans hok, hall⟩

/-- Witness for C7 at the two-channel fixture with budget 4. -/
theorem optimize_fixed_point_on_own_output_witness :
    resultOk (optimize demoChannels
        (allocOf (optimize demoChannels (fun _ => 1) 4)) 4) = true
    ∧ ∀ i, allocOf (optimize demoChannels
          (allocOf (optimize demoChannels (fun _ => 1) 4)) 4) i
        = allocOf (optimize demoChannels (fun _ => 1) 4) i :=
  optimize_fixed_point_on_own_output demoChannels (fun _ => 1) 4 (by decide)

/-! ## C6 — iteration ceilings (amended) -/

/-- C6 (amended; see the counterexample
`fit_ceiling_returns_fallback_not_iteration_error`): both loops carry hard
iteration ceilings (1000 increments for the water-filling loop, 200
iterations for the least-squares fit) and are total.  The water-filling loop
reports `IterationCeilingExceeded` when the ceiling would be exceeded and a
successful plan is never partial or overshooting (its total is exactly
min(total_budget, Σ max)).  The fit, however, reports ceiling exhaustion as
the `FitDivergence` fallback of §4.3/§7 — the low-confidence linear-ROAS
curve `k = total_revenue / total_spend` — not as an
`IterationCeilingExceeded` failure. -/
theorem iteration_ceilings_guarantee_termination :
    (∀ (m : ℕ) (chans : Fin m → OptChannel) (cs : Fin m → ℚ) (tb : ℚ),
      (∀ i, (chans i).lo ≤ (chans i).hi) →
      qsum (fun i => (chans i).lo) ≤ tb →
      optimize chans cs tb = .error .invalidBudget
        ∨ optimize chans cs tb = .error .iterationCeilingExceeded
        ∨ (resultOk (optimize chans cs tb) = true
            ∧ qsum (allocOf (optimize chans cs tb)) = min tb (qsum fun i => (chans i).hi)))
    ∧ ∀ (P : Type) (step : P → P) (converged : P → Bool) (p0 : P) (data : List (ℚ × ℚ)),
        lsqLoop step converged fitCeiling p0 = none →
        fitCurve step converged p0 data
          = .linearFallback ((data.map Prod.snd).sum / (data.map Prod.fst).sum) := by
  constructor
  · intro m chans cs tb hlohi hsum
    by_cases hv : tb < 0 ∨ ∃ i, (chans i).hi < (chans i).lo
    · left
      unfold optimize
      rw [if_pos hv]
    · cases h : waterFillAux chans tb iterationCeiling (fun i => (chans i).lo) with
      | error e =>
        right; left
        unfold optimize
        rw [if_neg hv, h, waterFillAux_error chans tb iterationCeiling _ e h]
        rfl
      | ok out =>
        right; right
        have hok : resultOk (optimize chans cs tb) = true := by
          unfold optimize
          rw [if_neg hv, h]
          rfl
        obtain ⟨out2, hwf2, halloc2⟩ := optimize_ok_waterFill hok
        obtain ⟨hbounds, hle, hcase⟩ := waterFillAux_ok_invariant chans tb iterationCeiling
          (fun i => (chans i).lo) out2 (fun i => ⟨le_refl _, hlohi i⟩) hsum hwf2
        rw [halloc2]
        exact ⟨hok, qsum_out_min hbounds hle hcase⟩
  · intro P step converged p0 data hdiv
    unfold fitCurve
    rw [hdiv]

/-- Witness for C6: the water-filling part at the two-channel fixture with
budget 4, and the fit part on a solver whose convergence test never
succeeds. -/
theorem iteration_ceilings_guarantee_termination_witness :
    (optimize demoChannels (fun _ => 1) 4 = .error .invalidBudget
      ∨ optimize demoChannels (fun _ => 1) 4 = .error .iterationCeilingExceeded
      ∨ (resultOk (optimize demoChannels (fun _ => 1) 4) = true
          ∧ qsum (allocOf (optimize demoChannels (fun _ => 1) 4))
              = min 4 (qsum fun i => (demoChannels i).hi)))
    ∧ fitCurve (id : ℚ → ℚ) (fun _ => false) 0 [(1, 5)]
        = .linearFallback (([((1 : ℚ), (5 : ℚ))].map Prod.snd).sum
            / ([((1 : ℚ), (5 : ℚ))].map Prod.fst).sum) :=
  ⟨iteration_ceilings_guarantee_termination.1 2 demoChannels (fun _ => 1) 4
      (by decide) (by decide),
    iteration_ceilings_guarantee_termination.2 ℚ id (fun _ => false) 0
      [((1 : ℚ), (5 : ℚ))] (by decide)⟩

/-- C6 (refuting the original claim): a fit whose solver never converges
exhausts the 200-iteration ceiling and returns the flagged linear-ROAS
fallback — a reported `FitDivergence` per §7 — rather than an
`IterationCeilingExceeded` failure as the claim states. -/
theorem fit_ceiling_returns_fallback_not_iteration_error :
    lsqLoop (id : ℚ → ℚ) (fun _ => false) fitCeiling 0 = none
    ∧ fitCurve (id : ℚ → ℚ) (fun _ => false) 0 [(1, 5)] = .linearFallback 5 := by
  decide

/-! ## Attribution engine lemmas -/

theorem shareQ_nonneg {m n : ℕ} (conv : Fin m → Fin n → ℕ) (c : Fin m) (d : Fin n) :
    0 ≤ shareQ conv c d := by
  unfold shareQ
  split
  · exact le_refl 0
  · exact div_nonneg (Nat.cast_nonneg _) (Nat.cast_nonneg _)

theorem sum_shareQ {m n : ℕ} (conv : Fin m → Fin n → ℕ) (d : Fin n) :
    ∑ c, shareQ conv c d = if dateTotal conv d = 0 then 0 else 1 := by
  unfold shareQ
  split
  next h => simp
  next h =>
    rw [← Finset.sum_div]
    have hcast : ∑ c, ((conv c d : ℚ)) = (dateTotal conv d : ℚ) := by
      unfold dateTotal
      push_cast
      rfl
    rw [hcast, div_self]
    exact_mod_cast h

theorem rawLinear_nonneg {m n : ℕ} (conv : Fin m → Fin n → ℕ) (c : Fin m) :
    0 ≤ rawLinear conv c :=
  Finset.sum_nonneg fun d _ =>
    mul_nonneg (shareQ_nonneg conv c d) (Nat.cast_nonneg _)

theorem sum_rawLinear {m n : ℕ} (conv : Fin m → Fin n → ℕ) :
    ∑ c, rawLinear conv c = (totalConversions conv : ℚ) := by
  unfold rawLinear totalConversions
  rw [Finset.sum_comm]
  push_cast
  refine Finset.sum_congr rfl fun d _ => ?_
  rw [← Finset.sum_mul, sum_shareQ]
  split
  next h =>
    rw [h]
    simp
  next h => rw [one_mul]

theorem sum_rawLinear_pos {m n : ℕ} {conv : Fin m → Fin n → ℕ}
    (h : totalConversions conv ≠ 0) : 0 < ∑ c, rawLinear conv c := by
  rw [sum_rawLinear]
  exact_mod_cast Nat.pos_of_ne_zero h

theorem exists_dateTotal_ne_zero {m n : ℕ} {conv : Fin m → Fin n → ℕ}
    (h : totalConversions conv ≠ 0) : ∃ d, dateTotal conv d ≠ 0 := by
  obtain ⟨d, _, hd⟩ := Finset.exists_ne_zero_of_sum_ne_zero h
  exact ⟨d, hd⟩

theorem decayWeight_pos (n : ℕ) (d : Fin n) : 0 < decayWeight n d :=
  Real.rpow_pos_of_pos (by norm_num) _

theorem rawTimeDecay_nonneg {m n : ℕ} (conv : Fin m → Fin n → ℕ) (c : Fin m) :
    0 ≤ rawTimeDecay conv c :=
  Finset.sum_nonneg fun d _ =>
    mul_nonneg (le_of_lt (decayWeight_pos n d))
      (mul_nonneg (by exact_mod_cast shareQ_nonneg conv c d) (Nat.cast_nonneg _))

theorem sum_rawTimeDecay_pos {m n : ℕ} {conv : Fin m → Fin n → ℕ}
    (h : totalConversions conv ≠ 0) : 0 < ∑ c, rawTimeDecay conv c := by
  obtain ⟨d0, hd0⟩ := exists_dateTotal_ne_zero h
  obtain ⟨c0, _, hc0⟩ := Finset.exists_ne_zero_of_sum_ne_zero (by
    unfold dateTotal at hd0
    exact hd0)
  refine Finset.sum_pos' (fun c _ => rawTimeDecay_nonneg conv c) ⟨c0, Finset.mem_univ c0, ?_⟩
  unfold rawTimeDecay
  refine Finset.sum_pos' (fun d _ =>
    mul_nonneg (le_of_lt (decayWeight_pos n d))
      (mul_nonneg (by exact_mod_cast shareQ_nonneg conv c0 d) (Nat.cast_nonneg _)))
    ⟨d0, Finset.mem_univ d0, ?_⟩
  have hTpos : 0 < dateTotal conv d0 := Nat.pos_of_ne_zero hd0
  have hshare : (0 : ℚ) < shareQ conv c0 d0 := by
    unfold shareQ
    rw [if_neg hd0]
    exact div_pos (by exact_mod_cast Nat.pos_of_ne_zero hc0) (by exact_mod_cast hTpos)
  refine mul_pos (decayWeight_pos n d0) (mul_pos ?_ ?_)
  · exact_mod_cast hshare
  · exact_mod_cast hTpos

theorem firstTouchDate_isSome {m n : ℕ} (conv : Fin m → Fin n → ℕ) (hn : 0 < n) :
    ∃ ft, firstTouchDate conv = some ft := by
  cases hft : firstTouchDate conv with
  | some ft => exact ⟨ft, rfl⟩
  | none =>
    exfalso
    have hnil := List.argmax_eq_none.mp hft
    rw [List.finRange_eq_nil] at hnil
    omega

theorem lastTouchDate_isSome {m n : ℕ} (conv : Fin m → Fin n → ℕ) (hn : 0 < n) :
    ∃ lt0, lastTouchDate conv = some lt0 := by
  cases hlt : lastTouchDate conv with
  | some x => exact ⟨x, rfl⟩
  | none =>
    exfalso
    have hnil := List.argmax_eq_none.mp hlt
    have hmem : (⟨n - 1, by omega⟩ : Fin n)
        ∈ (List.finRange n).filter (fun d => n - 3 ≤ d.val) := by
      simp only [List.mem_filter, List.mem_finRange, true_and, decide_eq_true_eq]
      omega
    rw [hnil] at hmem
    exact absurd hmem (List.not_mem_nil _)

theorem dateTotal_le_firstTouch {m n : ℕ} {conv : Fin m → Fin n → ℕ} {ft : Fin n}
    (hft : firstTouchDate conv = some ft) (d : Fin n) :
    dateTotal conv d ≤ dateTotal conv ft :=
  le_of_not_lt (List.not_lt_of_mem_argmax (List.mem_finRange d) (Option.mem_def.mpr hft))

theorem rawUShaped_nonneg {m n : ℕ} (conv : Fin m → Fin n → ℕ) (c : Fin m) :
    0 ≤ rawUShaped conv c := by
  unfold rawUShaped
  split
  · exact rawLinear_nonneg conv c
  · cases hft : firstTouchDate conv with
    | none => simp only [hft]; exact rawLinear_nonneg conv c
    | some ft =>
      cases hlt : lastTouchDate conv with
      | none => simp only [hft, hlt]; exact rawLinear_nonneg conv c
      | some lt0 =>
        simp only [hft, hlt]
        have h1 : (0 : ℚ) ≤ 2 / 5 * shareQ conv c ft :=
          mul_nonneg (by norm_num) (shareQ_nonneg conv c ft)
        have h2 : (0 : ℚ) ≤ 2 / 5 * shareQ conv c lt0 :=
          mul_nonneg (by norm_num) (shareQ_nonneg conv c lt0)
        have h3 : (0 : ℚ) ≤ ∑ d ∈ uOtherDates ft lt0,
            1 / 5 / ((uOtherDates ft lt0).card : ℚ) * shareQ conv c d :=
          Finset.sum_nonneg fun d _ =>
            mul_nonneg (div_nonneg (by norm_num) (Nat.cast_nonneg _)) (shareQ_nonneg conv c d)
        linarith

theorem sum_rawUShaped_pos {m n : ℕ} {conv : Fin m → Fin n → ℕ}
    (h : totalConversions conv ≠ 0) : 0 < ∑ c, rawUShaped conv c := by
  unfold rawUShaped
  split
  next => exact sum_rawLinear_pos h
  next hn3 =>
    have hn : 0 < n := by omega
    obtain ⟨ft, hft⟩ := firstTouchDate_isSome conv hn
    obtain ⟨lt0, hlt⟩ := lastTouchDate_isSome conv hn
    simp only [hft, hlt]
    have hTft : dateTotal conv ft ≠ 0 := by
      obtain ⟨d0, hd0⟩ := exists_dateTotal_ne_zero h
      have hle := dateTotal_le_firstTouch hft d0
      omega
    have hsum1 : ∑ c, shareQ conv c ft = 1 := by
      rw [sum_shareQ, if_neg hTft]
    rw [Finset.sum_add_distrib, Finset.sum_add_distrib]
    have hA : ∑ c, 2 / 5 * shareQ conv c ft = 2 / 5 := by
      rw [← Finset.mul_sum, hsum1, mul_one]
    have hB : (0 : ℚ) ≤ ∑ c, 2 / 5 * shareQ conv c lt0 :=
      Finset.sum_nonneg fun c _ => mul_nonneg (by norm_num) (shareQ_nonneg conv c lt0)
    have hC : (0 : ℚ) ≤ ∑ c, ∑ d ∈ uOtherDates ft lt0,
        1 / 5 / ((uOtherDates ft lt0).card : ℚ) * shareQ conv c d :=
      Finset.sum_nonneg fun c _ => Finset.sum_nonneg fun d _ =>
        mul_nonneg (div_nonneg (by norm_num) (Nat.cast_nonneg _)) (shareQ_nonneg conv c d)
    rw [hA]
    linarith

theorem rawDataDriven_nonneg {m n : ℕ} (rev : Fin m → Fin n → ℚ) (c : Fin m) :
    0 ≤ rawDataDriven rev c :=
  le_max_left 0 _

theorem sum_rawCredit_pos {m n : ℕ} (model : AttributionModel)
    (conv : Fin m → Fin n → ℕ) (rev : Fin m → Fin n → ℚ)
    (h : totalConversions conv ≠ 0) :
    0 < ∑ c, rawCredit model conv rev c := by
  cases model with
  | linear =>
    show (0 : ℝ) < ∑ c, ((rawLinear conv c : ℚ) : ℝ)
    exact_mod_cast sum_rawLinear_pos h
  | timeDecay =>
    exact sum_rawTimeDecay_pos h
  | uShaped =>
    show (0 : ℝ) < ∑ c, ((rawUShaped conv c : ℚ) : ℝ)
    exact_mod_cast sum_rawUShaped_pos h
  | dataDriven =>
    show (0 : ℝ) < ∑ c, (if ∀ c2, rawDataDriven rev c2 = 0
      then fun c2 => ((rawLinear conv c2 : ℚ) : ℝ)
      else fun c2 => ((rawDataDriven rev c2 : ℚ) : ℝ)) c
    split
    next => exact_mod_cast sum_rawLinear_pos h
    next hall =>
      push_neg at hall
      obtain ⟨c0, hc0⟩ := hall
      have hpos : (0 : ℚ) < rawDataDriven rev c0 :=
        lt_of_le_of_ne (rawDataDriven_nonneg rev c0) (Ne.symm hc0)
      exact Finset.sum_pos' (fun c _ => by exact_mod_cast rawDataDriven_nonneg rev c)
        ⟨c0, Finset.mem_univ c0, by exact_mod_cast hpos⟩

theorem sum_div_sum_eq_one {m : ℕ} (raw : Fin m → ℝ) (h : 0 < ∑ c, raw c) :
    ∑ c, raw c / ∑ cp, raw cp = 1 := by
  rw [← Finset.sum_div, div_self (ne_of_gt h)]

/-! ## C1 — attribution weights sum to one -/

/-- C1: for every date range and every attribution model (linear, time_decay,
u_shaped, data_driven), the attribution weights across the channel set sum to
1 — exactly, hence within the claimed 1e-6 tolerance — except for a range
with zero attributable conversions across all channels, which yields every
weight 0 and the outcome flagged empty. -/
theorem attribution_weights_sum_to_one {m n : ℕ} (model : AttributionModel)
    (conv : Fin m → Fin n → ℕ) (rev : Fin m → Fin n → ℚ) :
    (totalConversions conv = 0 →
      (attributeRange model conv rev).isEmpty = true
        ∧ ∀ c, (attributeRange model conv rev).weight c = 0)
    ∧ (totalConversions conv ≠ 0 →
      (attributeRange model conv rev).isEmpty = false
        ∧ ∑ c, (attributeRange model conv rev).weight c = 1
        ∧ |(∑ c, (attributeRange model conv rev).weight c) - 1| ≤ 1 / 1000000) := by
  constructor
  · intro h
    unfold attributeRange
    rw [if_pos h]
    exact ⟨rfl, fun c => rfl⟩
  · intro h
    unfold attributeRange
    rw [if_neg h]
    have hsum : ∑ c, rawCredit model conv rev c / ∑ cp, rawCredit model conv rev cp = 1 :=
      sum_div_sum_eq_one _ (sum_rawCredit_pos model conv rev h)
    refine ⟨rfl, ?_, ?_⟩
    · show ∑ c, rawCredit model conv rev c / ∑ cp, rawCredit model conv rev cp = 1
      exact hsum
    · show |(∑ c, rawCredit model conv rev c / ∑ cp, rawCredit model conv rev cp) - 1|
        ≤ 1 / 1000000
      rw [hsum]
      norm_num

/-- Witness for C1: a 1-channel, 1-day range with one conversion under the
linear model. -/
theorem attribution_weights_sum_to_one_witness :
    (attributeRange .linear (fun (_ : Fin 1) (_ : Fin 1) => 1)
        (fun _ _ => (5 : ℚ))).isEmpty = false
    ∧ ∑ c, (attributeRange .linear (fun (_ : Fin 1) (_ : Fin 1) => 1)
        (fun _ _ => (5 : ℚ))).weight c = 1
    ∧ |(∑ c, (attributeRange .linear (fun (_ : Fin 1) (_ : Fin 1) => 1)
        (fun _ _ => (5 : ℚ))).weight c) - 1| ≤ 1 / 1000000 :=
  (attribution_weights_sum_to_one .linear (fun _ _ => 1) (fun _ _ => 5)).2 (by decide)
